import Mathlib

/-!
Verification of the conversation-threading core of rk-telegram-tools.

The embedding models the Postgres-backed ConversationStore of
src/conversations.py: the three tables (conversations, message_registry,
document_counters) become association lists keyed by their primary keys,
and each store method becomes a state transition.  SQL NOW() becomes an
explicit timestamp argument.  The retry decorator, the root-resolution
logic and the AI-exchange handling of src/bot.py are modelled as well.
-/

/-- A chat message as stored in a conversation history (a dict with a
role and a content field in the source). -/
structure Msg where
  role : String
  content : String
deriving DecidableEq, Repr

/-- A row of the conversations table minus its primary key: container
handle, serialized message list, and freshness timestamp. -/
structure ConvRow where
  container_id : Option String
  messages : List Msg
  last_activity : Int
deriving DecidableEq, Repr

/-- The Conversation dataclass returned to callers of the store. -/
structure Conversation where
  messages : List Msg := []
  container_id : Option String := none
deriving DecidableEq, Repr

/-- The database state: the three tables of _CREATE_TABLES, each an
association list from primary key to the remaining columns.
conversations is keyed by (chat_id, root_message_id), message_registry
by (chat_id, message_id) with root_message_id as value, and
document_counters by (doc_type, year) with last_number as value. -/
structure DBState where
  conversations : List ((Int × Int) × ConvRow) := []
  registry : List ((Int × Int) × Int) := []
  counters : List ((String × Int) × Nat) := []
deriving DecidableEq, Repr

/-- The empty database, as created by _CREATE_TABLES on a fresh schema. -/
def emptyDB : DBState := {}

/-- Lookup of the first row with the given key, as a SELECT by primary
key (the primary key guarantees at most one matching row). -/
def alookup {κ β : Type} [DecidableEq κ] : List (κ × β) → κ → Option β
  | [], _ => none
  | e :: rest, k => if e.1 = k then some e.2 else alookup rest k

/-- SQL UPDATE by key: applies f to the value of every row whose key
matches, leaving all other rows (and the row order) unchanged. -/
def aupdate {κ β : Type} [DecidableEq κ] (k : κ) (f : β → β) : List (κ × β) → List (κ × β)
  | [] => []
  | e :: rest => (if e.1 = k then (e.1, f e.2) else e) :: aupdate k f rest

/-- ConversationStore.get_or_create: INSERT an empty conversation ON
CONFLICT DO UPDATE SET last_activity = NOW(), RETURNING messages and
container_id.  On a hit the stored row is returned with its freshness
refreshed; on a miss an empty row with a null container is inserted. -/
def getOrCreate (chat root : Int) (now : Int) (s : DBState) : Conversation × DBState :=
  match alookup s.conversations (chat, root) with
  | some row =>
      ({ messages := row.messages, container_id := row.container_id },
       { s with conversations :=
           aupdate (chat, root) (fun r => { r with last_activity := now }) s.conversations })
  | none =>
      ({ messages := [], container_id := none },
       { s with conversations :=
           s.conversations ++ [((chat, root), { container_id := none, messages := [], last_activity := now })] })

/-- ConversationStore.save: UPDATE conversations SET messages,
container_id, last_activity = NOW() WHERE the key matches.  A key with
no row updates nothing and raises nothing. -/
def save (chat root : Int) (conv : Conversation) (now : Int) (s : DBState) : DBState :=
  { s with conversations :=
      (aupdate (chat, root)
        (fun _ => { container_id := conv.container_id, messages := conv.messages, last_activity := now })
        s.conversations) }

/-- ConversationStore.register_message: INSERT INTO message_registry ON
CONFLICT DO NOTHING. -/
def registerMessage (chat msg root : Int) (s : DBState) : DBState :=
  match alookup s.registry (chat, msg) with
  | some _ => s
  | none => { s with registry := s.registry ++ [((chat, msg), root)] }

/-- ConversationStore.find_root: SELECT root_message_id FROM
message_registry by key, none when no row exists. -/
def findRoot (s : DBState) (chat msg : Int) : Option Int :=
  alookup s.registry (chat, msg)

/-- Keys of the conversations deleted by cleanup: rows whose
last_activity is older than NOW() minus the ttl (the RETURNING set of
the expired CTE). -/
def expiredKeys (ttl now : Int) (s : DBState) : List (Int × Int) :=
  (s.conversations.filter (fun e => decide (e.2.last_activity < now - ttl))).map Prod.fst

/-- ConversationStore.cleanup: one statement deleting the expired
conversations and every message_registry row whose (chat_id,
root_message_id) matches a deleted conversation. -/
def cleanup (ttl now : Int) (s : DBState) : DBState :=
  { s with
    conversations :=
      s.conversations.filter (fun e => !decide (e.2.last_activity < now - ttl)),
    registry :=
      s.registry.filter (fun e => !decide ((e.1.1, e.2) ∈ expiredKeys ttl now s)) }

/-- Zero-padding to width 3, Python format 03d for a non-negative int. -/
def pad3 (n : Nat) : String :=
  let s := toString n
  if s.length < 3 then String.mk (List.replicate (3 - s.length) '0') ++ s else s

/-- The document label f-string of next_document_number. -/
def formatDocNumber (dt : String) (y : Int) (n : Nat) : String :=
  dt ++ "-" ++ toString y ++ "-" ++ pad3 n

/-- The last_number value RETURNED by the counter upsert: 1 when the
key is new, the stored value plus one otherwise. -/
def nextDocRaw (dt : String) (y : Int) (s : DBState) : Nat :=
  match alookup s.counters (dt, y) with
  | some n => n + 1
  | none => 1

/-- ConversationStore.next_document_number: INSERT last_number 1 ON
CONFLICT DO UPDATE SET last_number = last_number + 1, RETURNING
last_number, formatted as doc_type-year-number with 03d padding. -/
def nextDocumentNumber (dt : String) (y : Int) (s : DBState) : String × DBState :=
  match alookup s.counters (dt, y) with
  | some n =>
      (formatDocNumber dt y (n + 1),
       { s with counters := aupdate (dt, y) (fun m => m + 1) s.counters })
  | none =>
      (formatDocNumber dt y 1,
       { s with counters := s.counters ++ [((dt, y), 1)] })

/-- State after n sequential next_document_number calls for one key. -/
def docCalls (dt : String) (y : Int) : Nat → DBState → DBState
  | 0, s => s
  | n + 1, s => (nextDocumentNumber dt y (docCalls dt y n s)).2

/-- Label returned by the n-th sequential call (counting from 1). -/
def nthDocLabel (dt : String) (y : Int) (n : Nat) (s : DBState) : String :=
  (nextDocumentNumber dt y (docCalls dt y (n - 1) s)).1

/-- Raw sequence number issued by the n-th sequential call. -/
def nthDocRaw (dt : String) (y : Int) (n : Nat) (s : DBState) : Nat :=
  nextDocRaw dt y (docCalls dt y (n - 1) s)

/-- Outcome of one attempt of a wrapped store method: a psycopg
OperationalError, any other exception, or a normal return. -/
inductive Outcome (α : Type) where
  | ok : α → Outcome α
  | operationalError : String → Outcome α
  | otherError : String → Outcome α
deriving DecidableEq, Repr

/-- The fixed backoff of _retry_on_disconnect, time.sleep(0.5), in ms. -/
def retryBackoffMs : Nat := 500

/-- Observable events of one call through the retry wrapper. -/
inductive RetryEvent where
  | attempt : Nat → RetryEvent
  | sleepMs : Nat → RetryEvent
deriving DecidableEq, Repr

/-- Whether a retry event is an invocation of the wrapped method. -/
def isAttempt : RetryEvent → Bool
  | RetryEvent.attempt _ => true
  | _ => false

/-- The _retry_on_disconnect decorator: the wrapped method's first
attempt is returned unless it raises OperationalError, in which case
the second attempt's outcome is returned unmodified.  outcomes i is the
outcome the underlying method would produce on attempt i. -/
def retryOnDisconnect {α : Type} (outcomes : Nat → Outcome α) : Outcome α :=
  match outcomes 0 with
  | Outcome.operationalError _ => outcomes 1
  | r => r

/-- Event trace of one call through _retry_on_disconnect: one attempt,
or on OperationalError an attempt, the fixed sleep, and one retry. -/
def retryTrace {α : Type} (outcomes : Nat → Outcome α) : List RetryEvent :=
  match outcomes 0 with
  | Outcome.operationalError _ =>
      [RetryEvent.attempt 0, RetryEvent.sleepMs retryBackoffMs, RetryEvent.attempt 1]
  | _ => [RetryEvent.attempt 0]

/-- Root resolution of handle_message (src/bot.py): a mention that is
not a reply starts a new conversation rooted at the message itself;
otherwise the registry is consulted for the replied-to id, falling back
to that id itself on a miss.  none models the unreachable branch where
a non-mention non-reply would dereference a missing reply. -/
def resolveRoot (s : DBState) (chat msgId : Int) (replyTo : Option Int) (mentioned : Bool) : Option Int :=
  if mentioned && replyTo.isNone then
    some msgId
  else
    match replyTo with
    | some repliedTo =>
        some (match findRoot s chat repliedTo with
              | some r => r
              | none => repliedTo)
    | none => none

/-- Result of the claude.send_message call: a container id and raw
content on success, or an exception. -/
inductive AIResult where
  | success : Option String → String → AIResult
  | failure : AIResult
deriving DecidableEq, Repr

/-- The user-facing failure text sent when the AI call raises. -/
def aiFailureNotice : String := "Error generando el documento. Intenta de nuevo."

/-- The conversation-mutating core of handle_message (src/bot.py lines
177-214): register the inbound message, load the conversation, append
the user turn, call the AI; on failure send the notice, pop the just
appended user turn and save; on success record the container id, append
the assistant turn and save.  Returns the new state and the notice, if
any.  Telegram transport and transcription are outside the model. -/
def handleExchange (chat msgId root : Int) (userText : String) (ai : AIResult) (now : Int)
    (s : DBState) : DBState × Option String :=
  let s₀ := registerMessage chat msgId root s
  let p := getOrCreate chat root now s₀
  let conv := p.1
  let working : Conversation :=
    { conv with messages := conv.messages ++ [{ role := "user", content := userText }] }
  match ai with
  | AIResult.failure =>
      let rolledBack : Conversation := { working with messages := working.messages.dropLast }
      (save chat root rolledBack now p.2, some aiFailureNotice)
  | AIResult.success cid raw =>
      let updated : Conversation :=
        { working with
          container_id := cid,
          messages := working.messages ++ [{ role := "assistant", content := raw }] }
      (save chat root updated now p.2, none)

/-- One store operation together with the wall-clock time NOW() at
which it executes (the register operation does not read the clock). -/
inductive StoreOp where
  | opGetOrCreate : Int → Int → Int → StoreOp
  | opSave : Int → Int → Conversation → Int → StoreOp
  | opRegister : Int → Int → Int → Int → StoreOp
  | opCleanup : Int → StoreOp
  | opNextDoc : String → Int → Int → StoreOp
deriving DecidableEq, Repr

/-- The NOW() timestamp carried by an operation. -/
def StoreOp.time : StoreOp → Int
  | StoreOp.opGetOrCreate _ _ now => now
  | StoreOp.opSave _ _ _ now => now
  | StoreOp.opRegister _ _ _ now => now
  | StoreOp.opCleanup now => now
  | StoreOp.opNextDoc _ _ now => now

/-- State transition of one store operation (ttl is the store's fixed
ttl_seconds configuration). -/
def applyOp (ttl : Int) : StoreOp → DBState → DBState
  | StoreOp.opGetOrCreate c r now, s => (getOrCreate c r now s).2
  | StoreOp.opSave c r conv now, s => save c r conv now s
  | StoreOp.opRegister c m r _, s => registerMessage c m r s
  | StoreOp.opCleanup now, s => cleanup ttl now s
  | StoreOp.opNextDoc dt y _, s => (nextDocumentNumber dt y s).2

/-- Sequential execution of a list of store operations. -/
def applyOps (ttl : Int) (ops : List StoreOp) (s : DBState) : DBState :=
  ops.foldl (fun st op => applyOp ttl op st) s

/-- Whether an operation registers the given (chat, message) key. -/
def registersKey (chat msg : Int) : StoreOp → Bool
  | StoreOp.opRegister c m _ _ => decide (c = chat) && decide (m = msg)
  | _ => false

/-- Attempt outcomes of a method whose first call hits a lost
connection and whose second call returns 7: a concrete input for
exercising the retry wrapper. -/
def wOutcomes : Nat → Outcome Nat :=
  fun n => if n = 0 then Outcome.operationalError "connection lost" else Outcome.ok 7

/-- A two-conversation database used to exercise cleanup: the key
(1, 10) is 60 seconds stale, the key (2, 20) is fresh, and each has one
registry entry pointing at it. -/
def wCleanupDB : DBState :=
  { conversations :=
      [((1, 10), { container_id := none, messages := [], last_activity := 0 }),
       ((2, 20), { container_id := none, messages := [], last_activity := 100 })],
    registry := [((1, 5), 10), ((2, 6), 20)],
    counters := [] }

/-- A one-conversation database whose key (1, 2) was last active at
time 10, used to exercise the freshness-monotonicity theorem. -/
def wMonotoneDB : DBState :=
  { conversations := [((1, 2), { container_id := none, messages := [], last_activity := 10 })],
    registry := [],
    counters := [] }

/-! Association-list lemmas shared by the claim proofs. -/

theorem alookup_append {κ β : Type} [DecidableEq κ] (l₁ l₂ : List (κ × β)) (k : κ) :
    alookup (l₁ ++ l₂) k =
      match alookup l₁ k with
      | some v => some v
      | none => alookup l₂ k := by
  induction l₁ with
  | nil => simp [alookup]
  | cons e rest ih =>
      by_cases h : e.1 = k
      · simp [alookup, h]
      · simp [alookup, h, ih]

theorem alookup_aupdate_self {κ β : Type} [DecidableEq κ] (k : κ) (f : β → β) (l : List (κ × β)) :
    alookup (aupdate k f l) k = Option.map f (alookup l k) := by
  induction l with
  | nil => rfl
  | cons e rest ih =>
      by_cases h : e.1 = k
      · simp [alookup, aupdate, h]
      · simp [alookup, aupdate, h, ih]

theorem alookup_aupdate_ne {κ β : Type} [DecidableEq κ] (k k' : κ) (f : β → β) (l : List (κ × β))
    (h : k' ≠ k) : alookup (aupdate k f l) k' = alookup l k' := by
  induction l with
  | nil => rfl
  | cons e rest ih =>
      by_cases he : e.1 = k
      · have hkk : ¬ (k = k') := fun hk => h hk.symm
        simp [alookup, aupdate, he, hkk, ih]
      · simp [alookup, aupdate, he, ih]

theorem aupdate_of_none {κ β : Type} [DecidableEq κ] (k : κ) (f : β → β) (l : List (κ × β))
    (h : alookup l k = none) : aupdate k f l = l := by
  induction l with
  | nil => rfl
  | cons e rest ih =>
      by_cases he : e.1 = k
      · simp [alookup, he] at h
      · simp [alookup, he] at h
        simp [aupdate, he, ih h]

theorem alookup_eq_none_iff {κ β : Type} [DecidableEq κ] (l : List (κ × β)) (k : κ) :
    alookup l k = none ↔ ∀ e ∈ l, e.1 ≠ k := by
  induction l with
  | nil => simp [alookup]
  | cons e rest ih =>
      by_cases he : e.1 = k
      · simp [alookup, he]
      · simp [alookup, he, ih]

theorem mem_of_alookup {κ β : Type} [DecidableEq κ] (l : List (κ × β)) (k : κ) (v : β)
    (h : alookup l k = some v) : (k, v) ∈ l := by
  induction l with
  | nil => simp [alookup] at h
  | cons e rest ih =>
      by_cases he : e.1 = k
      · simp [alookup, he] at h
        obtain ⟨a, b⟩ := e
        simp at he h
        subst he
        subst h
        exact List.mem_cons_self _ _
      · simp [alookup, he] at h
        exact List.mem_cons_of_mem _ (ih h)

theorem alookup_of_mem_nodup {κ β : Type} [DecidableEq κ] (l : List (κ × β)) (k : κ) (v : β)
    (hnd : (l.map Prod.fst).Nodup) (hm : (k, v) ∈ l) : alookup l k = some v := by
  induction l with
  | nil => simp at hm
  | cons e rest ih =>
      rw [List.map_cons, List.nodup_cons] at hnd
      rcases List.mem_cons.mp hm with heq | hmem
      · rw [← heq]
        simp [alookup]
      · have hk : k ∈ rest.map Prod.fst := List.mem_map.mpr ⟨(k, v), hmem, rfl⟩
        have hne : e.1 ≠ k := fun h => hnd.1 (h ▸ hk)
        simp [alookup, hne, ih hnd.2 hmem]

theorem alookup_filter {κ β : Type} [DecidableEq κ] (p : κ × β → Bool) (l : List (κ × β)) (k : κ)
    (hnd : (l.map Prod.fst).Nodup) :
    alookup (l.filter p) k =
      match alookup l k with
      | some v => if p (k, v) then some v else none
      | none => none := by
  induction l with
  | nil => rfl
  | cons e rest ih =>
      rw [List.map_cons, List.nodup_cons] at hnd
      obtain ⟨a, b⟩ := e
      by_cases hk : a = k
      · subst hk
        cases hp : p (a, b)
        · have hnone : alookup (rest.filter p) a = none := by
            rw [alookup_eq_none_iff]
            intro e' he'
            have : e'.1 ∈ rest.map Prod.fst :=
              List.mem_map.mpr ⟨e', List.mem_filter.mp he' |>.1, rfl⟩
            exact fun h => hnd.1 (h ▸ this)
          simp [List.filter_cons, hp, alookup, hnone]
        · simp [List.filter_cons, hp, alookup]
      · cases hp : p (a, b)
        · simp [List.filter_cons, hp, alookup, hk, ih hnd.2]
        · simp [List.filter_cons, hp, alookup, hk, ih hnd.2]

theorem mem_expiredKeys_iff (ttl now : Int) (s : DBState) (k : Int × Int) :
    k ∈ expiredKeys ttl now s ↔
      ∃ row, (k, row) ∈ s.conversations ∧ row.last_activity < now - ttl := by
  constructor
  · intro h
    rcases List.mem_map.mp h with ⟨e, he, hfst⟩
    rcases List.mem_filter.mp he with ⟨hm, hc⟩
    refine ⟨e.2, ?_, by simpa using hc⟩
    rw [← hfst]
    simpa using hm
  · rintro ⟨row, hm, hc⟩
    exact List.mem_map.mpr ⟨(k, row), List.mem_filter.mpr ⟨hm, by simpa using hc⟩, rfl⟩

/-! Small facts about which tables each operation touches. -/

theorem getOrCreate_registry (c r now : Int) (s : DBState) :
    ((getOrCreate c r now s).2).registry = s.registry := by
  unfold getOrCreate
  cases alookup s.conversations (c, r) <;> rfl

theorem registerMessage_conversations (c m r : Int) (s : DBState) :
    (registerMessage c m r s).conversations = s.conversations := by
  unfold registerMessage
  cases alookup s.registry (c, m) <;> rfl

theorem nextDocumentNumber_conversations (dt : String) (y : Int) (s : DBState) :
    ((nextDocumentNumber dt y s).2).conversations = s.conversations := by
  unfold nextDocumentNumber
  cases alookup s.counters (dt, y) <;> rfl

theorem nextDocumentNumber_registry (dt : String) (y : Int) (s : DBState) :
    ((nextDocumentNumber dt y s).2).registry = s.registry := by
  unfold nextDocumentNumber
  cases alookup s.counters (dt, y) <;> rfl

/-- After get_or_create the row for the key exists, carries the
returned messages and container, and is stamped with now. -/
theorem getOrCreate_lookup (chat root now : Int) (s : DBState) :
    alookup ((getOrCreate chat root now s).2).conversations (chat, root) =
      some { container_id := (getOrCreate chat root now s).1.container_id,
             messages := (getOrCreate chat root now s).1.messages,
             last_activity := now } := by
  unfold getOrCreate
  cases h : alookup s.conversations (chat, root) with
  | some row => simp [alookup_aupdate_self, h]
  | none =>
      simp only
      rw [alookup_append, h]
      simp [alookup]

/-- On a hit, get_or_create returns exactly the stored messages and
container handle. -/
theorem getOrCreate_fst_of_some (chat root now : Int) (s : DBState) (row : ConvRow)
    (h : alookup s.conversations (chat, root) = some row) :
    (getOrCreate chat root now s).1
      = { messages := row.messages, container_id := row.container_id } := by
  unfold getOrCreate
  rw [h]

/-- On a miss, get_or_create returns a fresh empty conversation. -/
theorem getOrCreate_fst_of_none (chat root now : Int) (s : DBState)
    (h : alookup s.conversations (chat, root) = none) :
    (getOrCreate chat root now s).1 = { messages := [], container_id := none } := by
  unfold getOrCreate
  rw [h]

/-- C2: for every chat_id and root_message_id, get_or_create, then save
with any conversation value, then get_or_create again returns a
Conversation whose message list equals exactly the saved conversation's
message list and whose context handle equals its handle. -/
theorem store_round_trip (chat root : Int) (conv : Conversation) (n₁ n₂ n₃ : Int) (s : DBState) :
    ((getOrCreate chat root n₃ (save chat root conv n₂ ((getOrCreate chat root n₁ s).2))).1).messages
        = conv.messages
    ∧ ((getOrCreate chat root n₃ (save chat root conv n₂ ((getOrCreate chat root n₁ s).2))).1).container_id
        = conv.container_id := by
  have h₁ := getOrCreate_lookup chat root n₁ s
  have h₂ : alookup (save chat root conv n₂ ((getOrCreate chat root n₁ s).2)).conversations
      (chat, root)
      = some { container_id := conv.container_id, messages := conv.messages, last_activity := n₂ } := by
    simp [save, alookup_aupdate_self, h₁]
  rw [getOrCreate_fst_of_some chat root n₃ _ _ h₂]
  exact ⟨rfl, rfl⟩

/-- C4: register_message is idempotent with first-writer-wins
semantics: on a key already registered to r₁, registering any r₂
raises nothing, leaves the whole state unchanged, and find_root still
returns r₁. -/
theorem register_idempotent (chat msg r₁ r₂ : Int) (s : DBState)
    (h : alookup s.registry (chat, msg) = some r₁) :
    registerMessage chat msg r₂ s = s
    ∧ findRoot (registerMessage chat msg r₂ s) chat msg = some r₁ := by
  constructor
  · simp [registerMessage, h]
  · simp [registerMessage, findRoot, h]

/-- Witness for C4 at a registry holding (1, 2) with root 3 and a
duplicate insert with root 9. -/
theorem register_idempotent_witness :
    registerMessage 1 2 9 { conversations := [], registry := [((1, 2), 3)], counters := [] }
        = { conversations := [], registry := [((1, 2), 3)], counters := [] }
    ∧ findRoot (registerMessage 1 2 9
        { conversations := [], registry := [((1, 2), 3)], counters := [] }) 1 2 = some 3 :=
  register_idempotent 1 2 3 9 { conversations := [], registry := [((1, 2), 3)], counters := [] } rfl

/-- C10: save on a key never created is a silent no-op: with no row for
the key, save changes nothing and a later get_or_create returns a newly
created empty conversation, not the saved value. -/
theorem save_missing_noop (chat root : Int) (conv : Conversation) (n₁ n₂ : Int) (s : DBState)
    (h : alookup s.conversations (chat, root) = none) :
    save chat root conv n₁ s = s
    ∧ ((getOrCreate chat root n₂ (save chat root conv n₁ s)).1)
        = { messages := [], container_id := none } := by
  have hs : save chat root conv n₁ s = s := by
    simp [save, aupdate_of_none _ _ _ h]
  refine ⟨hs, ?_⟩
  rw [hs]
  simp [getOrCreate, h]

/-- Witness for C10: saving a nonempty conversation into an empty
database persists nothing. -/
theorem save_missing_noop_witness :
    save 1 2 { messages := [{ role := "user", content := "hola" }], container_id := some "c" } 5 emptyDB
        = emptyDB
    ∧ ((getOrCreate 1 2 6 (save 1 2
          { messages := [{ role := "user", content := "hola" }], container_id := some "c" } 5 emptyDB)).1)
        = { messages := [], container_id := none } :=
  save_missing_noop 1 2
    { messages := [{ role := "user", content := "hola" }], container_id := some "c" } 5 6 emptyDB rfl

/-- C6: the retry wrapper retries exactly once after the fixed backoff
on a transient connectivity failure and returns the retry's outcome
unmodified; it never attempts an operation more than twice; and a
non-transient failure (or a success) propagates immediately with no
retry. -/
theorem retry_once {α : Type} (outcomes : Nat → Outcome α) :
    (∀ e, outcomes 0 = Outcome.operationalError e →
        retryOnDisconnect outcomes = outcomes 1
        ∧ retryTrace outcomes
            = [RetryEvent.attempt 0, RetryEvent.sleepMs retryBackoffMs, RetryEvent.attempt 1])
    ∧ ((retryTrace outcomes).filter isAttempt).length ≤ 2
    ∧ (∀ e, outcomes 0 = Outcome.otherError e →
        retryOnDisconnect outcomes = Outcome.otherError e
        ∧ retryTrace outcomes = [RetryEvent.attempt 0])
    ∧ (∀ a, outcomes 0 = Outcome.ok a →
        retryOnDisconnect outcomes = Outcome.ok a
        ∧ retryTrace outcomes = [RetryEvent.attempt 0]) := by
  refine ⟨?_, ?_, ?_, ?_⟩
  · intro e h
    constructor <;> simp [retryOnDisconnect, retryTrace, h]
  · cases h : outcomes 0 <;> simp [retryTrace, h, isAttempt]
  · intro e h
    constructor <;> simp [retryOnDisconnect, retryTrace, h]
  · intro a h
    constructor <;> simp [retryOnDisconnect, retryTrace, h]

/-- Witness for C6 on an operation whose first attempt loses the
connection and whose retry succeeds with 7. -/
theorem retry_once_witness :
    retryOnDisconnect wOutcomes = wOutcomes 1
    ∧ retryTrace wOutcomes
        = [RetryEvent.attempt 0, RetryEvent.sleepMs retryBackoffMs, RetryEvent.attempt 1] :=
  (retry_once wOutcomes).1 "connection lost" rfl

/-- C7: root resolution never fails on a registry miss: a reply whose
replied-to id is not in the registry resolves to that id itself, with
no error, and the conversation then starts fresh and empty at that key;
a registered replied-to id resolves to its registered root. -/
theorem root_resolution_fallback (s : DBState) (chat msgId rid : Int) (mentioned : Bool) (now : Int) :
    (findRoot s chat rid = none →
        resolveRoot s chat msgId (some rid) mentioned = some rid
        ∧ (alookup s.conversations (chat, rid) = none →
            (getOrCreate chat rid now s).1 = { messages := [], container_id := none }))
    ∧ (∀ r, findRoot s chat rid = some r →
        resolveRoot s chat msgId (some rid) mentioned = some r) := by
  constructor
  · intro h
    constructor
    · simp [resolveRoot, h]
    · intro hconv
      simp [getOrCreate, hconv]
  · intro r h
    simp [resolveRoot, h]

/-- Witness for C7: a reply to the unregistered message 555 in an empty
database resolves root 555 and yields a fresh empty conversation. -/
theorem root_resolution_fallback_witness :
    resolveRoot emptyDB 1 2 (some 555) false = some 555
    ∧ (getOrCreate 1 555 0 emptyDB).1 = { messages := [], container_id := none } := by
  have h := (root_resolution_fallback emptyDB 1 2 555 false 0).1 rfl
  exact ⟨h.1, h.2 rfl⟩

/-- After k sequential calls for a key that started absent, the stored
counter for that key is exactly k. -/
theorem docCalls_counter (dt : String) (y : Int) (s : DBState)
    (h : alookup s.counters (dt, y) = none) :
    ∀ k, alookup (docCalls dt y k s).counters (dt, y) = if k = 0 then none else some k := by
  intro k
  induction k with
  | zero => simpa [docCalls]
  | succ n ih =>
      by_cases hn : n = 0
      · subst hn
        simp [docCalls, nextDocumentNumber, h, alookup_append, alookup]
      · rw [if_neg hn] at ih
        simp [docCalls, nextDocumentNumber, ih, alookup_aupdate_self]

/-- C1: for a fixed (doc_type, year) key starting absent, the n-th
sequential next_document_number call (counting from 1) returns the
label doc_type-year- followed by n zero-padded to three digits; the raw
sequence numbers are exactly 1, 2, ..., hence strictly increasing,
contiguous from 1, and each value is returned by exactly one call. -/
theorem doc_counter_sequence (dt : String) (y : Int) (s : DBState)
    (h : alookup s.counters (dt, y) = none) (n : Nat) (hn : 1 ≤ n) :
    nthDocLabel dt y n s = dt ++ "-" ++ toString y ++ "-" ++ pad3 n
    ∧ nthDocRaw dt y n s = n
    ∧ (∀ m, 1 ≤ m → m < n → nthDocRaw dt y m s < nthDocRaw dt y n s)
    ∧ (∀ m, 1 ≤ m → m ≠ n → nthDocRaw dt y m s ≠ nthDocRaw dt y n s) := by
  have raw : ∀ j, 1 ≤ j → nthDocRaw dt y j s = j := by
    intro j hj
    have hcount := docCalls_counter dt y s h (j - 1)
    by_cases hj1 : j - 1 = 0
    · have hone : j = 1 := by omega
      subst hone
      have hcount0 : alookup (docCalls dt y 0 s).counters (dt, y) = none := by
        simpa using docCalls_counter dt y s h 0
      simp [nthDocRaw, nextDocRaw, hcount0]
    · rw [if_neg hj1] at hcount
      simp [nthDocRaw, nextDocRaw, hcount]
      omega
  have label : nthDocLabel dt y n s = formatDocNumber dt y n := by
    have hcount := docCalls_counter dt y s h (n - 1)
    by_cases hn1 : n - 1 = 0
    · have hone : n = 1 := by omega
      subst hone
      have hcount0 : alookup (docCalls dt y 0 s).counters (dt, y) = none := by
        simpa using docCalls_counter dt y s h 0
      simp [nthDocLabel, nextDocumentNumber, hcount0]
    · rw [if_neg hn1] at hcount
      have : n - 1 + 1 = n := by omega
      simp [nthDocLabel, nextDocumentNumber, hcount, this]
  refine ⟨by simpa [formatDocNumber] using label, raw n hn, ?_, ?_⟩
  · intro m hm hlt
    rw [raw m hm, raw n hn]
    exact hlt
  · intro m hm hne
    rw [raw m hm, raw n hn]
    exact hne

/-- Witness for C1: the second call for (COT, 2026) on a fresh database
returns COT-2026-002 and raw sequence number 2. -/
theorem doc_counter_sequence_witness :
    nthDocLabel "COT" 2026 2 emptyDB = "COT" ++ "-" ++ toString (2026 : Int) ++ "-" ++ pad3 2
    ∧ nthDocRaw "COT" 2026 2 emptyDB = 2 := by
  have h := doc_counter_sequence "COT" 2026 emptyDB rfl 2 (by decide)
  exact ⟨h.1, h.2.1⟩

/-- One operation that does not register (chat, msg) preserves the
absence of that key from the registry. -/
theorem applyOp_preserves_unregistered (chat msg ttl : Int) (op : StoreOp)
    (hop : registersKey chat msg op = false) (s : DBState)
    (h : findRoot s chat msg = none) : findRoot (applyOp ttl op s) chat msg = none := by
  cases op with
  | opGetOrCreate c r now =>
      simpa [findRoot, applyOp, getOrCreate_registry] using h
  | opSave c r conv now =>
      simpa [findRoot, applyOp, save] using h
  | opRegister c m r now =>
      simp [registersKey] at hop
      simp only [findRoot, applyOp] at h ⊢
      unfold registerMessage
      cases hreg : alookup s.registry (c, m) with
      | some v => exact h
      | none =>
          rw [alookup_append, h]
          have hne : ((c, m) : Int × Int) ≠ (chat, msg) := by
            intro he
            rw [Prod.mk.injEq] at he
            exact hop he.1 he.2
          simp [alookup, hne]
  | opCleanup now =>
      simp only [findRoot, applyOp, cleanup] at h ⊢
      rw [alookup_eq_none_iff] at h ⊢
      intro e he
      exact h e (List.mem_filter.mp he).1
  | opNextDoc dt yy now =>
      simpa [findRoot, applyOp, nextDocumentNumber_registry] using h

/-- A trace of operations none of which registers (chat, msg)
preserves the absence of that key from the registry. -/
theorem applyOps_preserves_unregistered (chat msg ttl : Int) (ops : List StoreOp)
    (hops : ops.all (fun op => !registersKey chat msg op) = true) (s : DBState)
    (h : findRoot s chat msg = none) : findRoot (applyOps ttl ops s) chat msg = none := by
  induction ops generalizing s with
  | nil => simpa [applyOps]
  | cons op rest ih =>
      rw [List.all_cons, Bool.and_eq_true] at hops
      have hop : registersKey chat msg op = false := by
        cases hr : registersKey chat msg op
        · rfl
        · rw [hr] at hops
          simp at hops
      have step := applyOp_preserves_unregistered chat msg ttl op hop s h
      simpa [applyOps] using ih hops.2 (applyOp ttl op s) step

/-- C3: registering a previously unregistered (chat, message) key and
then looking it up returns the registered root; and on any trace of
store operations from the empty database in which (chat, message) is
never registered, find_root on that key returns none. -/
theorem register_find_root (chat msg : Int) :
    (∀ root s, findRoot s chat msg = none →
        findRoot (registerMessage chat msg root s) chat msg = some root)
    ∧ (∀ ttl ops, ops.all (fun op => !registersKey chat msg op) = true →
        findRoot (applyOps ttl ops emptyDB) chat msg = none) := by
  constructor
  · intro root s h
    simp only [findRoot] at h
    simp [findRoot, registerMessage, h, alookup_append, alookup]
  · intro ttl ops hops
    exact applyOps_preserves_unregistered chat msg ttl ops hops emptyDB rfl

/-- Witness for C3: registering (1, 2) with root 3 in an empty database
makes find_root return 3, while a trace registering an unrelated key
leaves (1, 2) unresolved. -/
theorem register_find_root_witness :
    findRoot (registerMessage 1 2 3 emptyDB) 1 2 = some 3
    ∧ findRoot (applyOps 86400 [StoreOp.opRegister 4 5 6 0] emptyDB) 1 2 = none :=
  ⟨(register_find_root 1 2).1 3 emptyDB rfl,
   (register_find_root 1 2).2 86400 [StoreOp.opRegister 4 5 6 0] (by decide)⟩

/-- C8: on a failed AI exchange the just-appended user turn is rolled
back before persisting: the stored message list for the key equals the
list as loaded before the append, a later get_or_create returns that
same list, and the user-visible failure notice is reported instead of
an error propagating. -/
theorem ai_failure_rollback (chat msgId root : Int) (text : String) (now later : Int)
    (s : DBState) :
    alookup ((handleExchange chat msgId root text AIResult.failure now s).1).conversations
        (chat, root)
      = some { container_id :=
                 (getOrCreate chat root now (registerMessage chat msgId root s)).1.container_id,
               messages :=
                 (getOrCreate chat root now (registerMessage chat msgId root s)).1.messages,
               last_activity := now }
    ∧ ((getOrCreate chat root later
          ((handleExchange chat msgId root text AIResult.failure now s).1)).1).messages
      = (getOrCreate chat root now (registerMessage chat msgId root s)).1.messages
    ∧ (handleExchange chat msgId root text AIResult.failure now s).2 = some aiFailureNotice := by
  have hlook := getOrCreate_lookup chat root now (registerMessage chat msgId root s)
  have hstate : (handleExchange chat msgId root text AIResult.failure now s).1
      = save chat root
          { messages :=
              (((getOrCreate chat root now (registerMessage chat msgId root s)).1.messages
                ++ [({ role := "user", content := text } : Msg)]).dropLast),
            container_id :=
              (getOrCreate chat root now (registerMessage chat msgId root s)).1.container_id }
          now ((getOrCreate chat root now (registerMessage chat msgId root s)).2) := by
    simp [handleExchange]
  have hdrop :
      ((getOrCreate chat root now (registerMessage chat msgId root s)).1.messages
        ++ [{ role := "user", content := text }] : List Msg).dropLast
      = (getOrCreate chat root now (registerMessage chat msgId root s)).1.messages := by
    simp
  have hafter : alookup ((handleExchange chat msgId root text AIResult.failure now s).1).conversations
      (chat, root)
      = some { container_id :=
                 (getOrCreate chat root now (registerMessage chat msgId root s)).1.container_id,
               messages :=
                 (getOrCreate chat root now (registerMessage chat msgId root s)).1.messages,
               last_activity := now } := by
    rw [hstate]
    simp [save, alookup_aupdate_self, hlook, hdrop]
  refine ⟨hafter, ?_, by simp [handleExchange]⟩
  rw [getOrCreate_fst_of_some chat root later _ _ hafter]

/-- C5: cleanup deletes exactly the conversations whose age exceeds the
ttl together with the registry entries whose key matches a deleted
conversation; unexpired conversations and unaffected registry entries
survive unmodified, and afterwards no registry entry refers to a key
this call deleted. -/
theorem cleanup_exact (ttl now : Int) (s : DBState)
    (hnd : (s.conversations.map Prod.fst).Nodup) :
    (∀ c r row, alookup s.conversations (c, r) = some row → now - row.last_activity > ttl →
        alookup (cleanup ttl now s).conversations (c, r) = none)
    ∧ (∀ c r row, alookup s.conversations (c, r) = some row → now - row.last_activity ≤ ttl →
        alookup (cleanup ttl now s).conversations (c, r) = some row)
    ∧ (∀ c m r, ((c, m), r) ∈ s.registry →
        (∃ row, alookup s.conversations (c, r) = some row ∧ now - row.last_activity > ttl) →
        ((c, m), r) ∉ (cleanup ttl now s).registry)
    ∧ (∀ c m r, ((c, m), r) ∈ s.registry →
        ¬ (∃ row, alookup s.conversations (c, r) = some row ∧ now - row.last_activity > ttl) →
        ((c, m), r) ∈ (cleanup ttl now s).registry)
    ∧ (∀ c m r, ((c, m), r) ∈ (cleanup ttl now s).registry →
        ¬ (∃ row, alookup s.conversations (c, r) = some row ∧ now - row.last_activity > ttl)) := by
  refine ⟨?_, ?_, ?_, ?_, ?_⟩
  · intro c r row h hexp
    simp only [cleanup]
    rw [alookup_filter _ _ _ hnd, h]
    have hlt : row.last_activity < now - ttl := by omega
    simp [hlt]
  · intro c r row h hfresh
    simp only [cleanup]
    rw [alookup_filter _ _ _ hnd, h]
    have hge : ¬ (row.last_activity < now - ttl) := by omega
    simp [hge]
  · rintro c m r hmem ⟨row, hrow, hexp⟩ hin
    simp only [cleanup] at hin
    have hq := (List.mem_filter.mp hin).2
    have hex : ((c, r) : Int × Int) ∈ expiredKeys ttl now s :=
      (mem_expiredKeys_iff ttl now s (c, r)).mpr
        ⟨row, mem_of_alookup _ _ _ hrow, by omega⟩
    simp [hex] at hq
  · intro c m r hmem hnex
    simp only [cleanup]
    refine List.mem_filter.mpr ⟨hmem, ?_⟩
    have hnot : ((c, r) : Int × Int) ∉ expiredKeys ttl now s := by
      intro hex
      rcases (mem_expiredKeys_iff ttl now s (c, r)).mp hex with ⟨row, hmemc, hlt⟩
      exact hnex ⟨row, alookup_of_mem_nodup _ _ _ hnd hmemc, by omega⟩
    simp [hnot]
  · intro c m r hin
    simp only [cleanup] at hin
    have hq := (List.mem_filter.mp hin).2
    rintro ⟨row, hrow, hexp⟩
    have hex : ((c, r) : Int × Int) ∈ expiredKeys ttl now s :=
      (mem_expiredKeys_iff ttl now s (c, r)).mpr
        ⟨row, mem_of_alookup _ _ _ hrow, by omega⟩
    simp [hex] at hq

/-- Witness for C5 on a database with one 60-second-stale conversation
(1, 10) and one fresh conversation (2, 20), each with one registry
entry, swept with ttl 50 at time 60. -/
theorem cleanup_exact_witness :
    alookup (cleanup 50 60 wCleanupDB).conversations (1, 10) = none
    ∧ alookup (cleanup 50 60 wCleanupDB).conversations (2, 20)
        = some { container_id := none, messages := [], last_activity := 100 }
    ∧ ((1, 5), 10) ∉ (cleanup 50 60 wCleanupDB).registry
    ∧ ((2, 6), 20) ∈ (cleanup 50 60 wCleanupDB).registry := by
  have h := cleanup_exact 50 60 wCleanupDB (by decide)
  refine ⟨?_, ?_, ?_, ?_⟩
  · exact h.1 1 10 { container_id := none, messages := [], last_activity := 0 } rfl (by decide)
  · exact h.2.1 2 20 { container_id := none, messages := [], last_activity := 100 } rfl (by decide)
  · exact h.2.2.1 1 5 10 (by decide)
      ⟨{ container_id := none, messages := [], last_activity := 0 }, rfl, by decide⟩
  · refine h.2.2.2.1 2 6 20 (by decide) ?_
    rintro ⟨row, hl, hc⟩
    have hrow : row = { container_id := none, messages := [], last_activity := 100 } := by
      simpa [wCleanupDB, alookup] using hl.symm
    rw [hrow] at hc
    simp at hc

/-- C9: last_activity never moves backwards: get_or_create stamps the
key with now even on a cache hit, save stamps it with now, and for
every store operation whose clock reading is at least the stored
last_activity, the surviving row's last_activity is no smaller than
before. -/
theorem last_activity_monotone (ttl : Int) (op : StoreOp) (s : DBState) (chat root : Int)
    (hnd : (s.conversations.map Prod.fst).Nodup) :
    (∀ row now, alookup s.conversations (chat, root) = some row →
        alookup ((getOrCreate chat root now s).2).conversations (chat, root)
          = some { row with last_activity := now })
    ∧ (∀ conv row now, alookup s.conversations (chat, root) = some row →
        alookup (save chat root conv now s).conversations (chat, root)
          = some { container_id := conv.container_id, messages := conv.messages,
                   last_activity := now })
    ∧ (∀ row row', alookup s.conversations (chat, root) = some row →
        row.last_activity ≤ op.time →
        alookup (applyOp ttl op s).conversations (chat, root) = some row' →
        row.last_activity ≤ row'.last_activity) := by
  refine ⟨?_, ?_, ?_⟩
  · intro row now h
    unfold getOrCreate
    rw [h]
    simp [alookup_aupdate_self, h]
  · intro conv row now h
    simp [save, alookup_aupdate_self, h]
  · intro row row' h htime hafter
    cases op with
    | opGetOrCreate c r now =>
        simp only [applyOp] at hafter
        unfold getOrCreate at hafter
        cases hcr : alookup s.conversations (c, r) with
        | some row₀ =>
            rw [hcr] at hafter
            simp only at hafter
            by_cases hk : ((chat, root) : Int × Int) = (c, r)
            · rw [← hk] at hafter
              rw [alookup_aupdate_self, h] at hafter
              simp at hafter
              rw [← hafter]
              simpa [StoreOp.time] using htime
            · rw [alookup_aupdate_ne _ _ _ _ hk, h] at hafter
              simp at hafter
              rw [← hafter]
        | none =>
            rw [hcr] at hafter
            simp only at hafter
            rw [alookup_append, h] at hafter
            simp at hafter
            rw [← hafter]
    | opSave c r conv now =>
        simp only [applyOp, save] at hafter
        by_cases hk : ((chat, root) : Int × Int) = (c, r)
        · rw [← hk] at hafter
          rw [alookup_aupdate_self, h] at hafter
          simp at hafter
          rw [← hafter]
          simpa [StoreOp.time] using htime
        · rw [alookup_aupdate_ne _ _ _ _ hk, h] at hafter
          simp at hafter
          rw [← hafter]
    | opRegister c m r now =>
        simp only [applyOp] at hafter
        rw [registerMessage_conversations, h] at hafter
        simp at hafter
        rw [← hafter]
    | opCleanup now =>
        simp only [applyOp, cleanup] at hafter
        rw [alookup_filter _ _ _ hnd, h] at hafter
        simp at hafter
        rw [← hafter.2]
    | opNextDoc dt yy now =>
        simp only [applyOp] at hafter
        rw [nextDocumentNumber_conversations, h] at hafter
        simp at hafter
        rw [← hafter]

/-- Witness for C9 on a one-row database last active at 10: a hit at
time 20 restamps it to 20, a save at 30 restamps it to 30, and the
stored freshness never decreases. -/
theorem last_activity_monotone_witness :
    alookup ((getOrCreate 1 2 20 wMonotoneDB).2).conversations (1, 2)
      = some { container_id := none, messages := [], last_activity := 20 }
    ∧ alookup (save 1 2 { messages := [], container_id := none } 30 wMonotoneDB).conversations (1, 2)
      = some { container_id := none, messages := [], last_activity := 30 }
    ∧ (10 : Int) ≤ 30 := by
  have h := last_activity_monotone 86400
    (StoreOp.opSave 1 2 { messages := [], container_id := none } 30) wMonotoneDB 1 2 (by decide)
  refine ⟨?_, ?_, ?_⟩
  · exact h.1 { container_id := none, messages := [], last_activity := 10 } 20 rfl
  · exact h.2.1 { messages := [], container_id := none }
      { container_id := none, messages := [], last_activity := 10 } 30 rfl
  · exact h.2.2 { container_id := none, messages := [], last_activity := 10 }
      { container_id := none, messages := [], last_activity := 30 } rfl (by decide) rfl
